import Mathlib

/-!
Verification of the Face-It attendance core.

The development shallowly embeds the tracking logic of
`face_recognition_module.py` (shared verbatim by
`face_recognition_module_simple.py`) and the recorder / session logic of
`attendance_tracker.py`.  Python dictionaries become insertion-ordered
association lists, sets become finite sets over natural-number identities,
and wall-clock instants become integers.  External collaborators (camera,
matcher, database) appear as explicit parameters: the database reply to
`record_entry` / `record_exit` is a boolean oracle argument, and the rows
returned by `get_all_students` / `get_today_attendance` are list arguments.
-/

namespace FaceIt

/-- Direction of an attendance transition (the `action` field of an update). -/
inductive Action where
  | entered
  | exited
deriving DecidableEq, Repr

/-- Per-identity tracking record: one value of `student_tracking` in
`FaceRecognitionModule`. -/
structure TrackingState where
  name : String
  first_seen : Int
  last_seen : Int
  entry_frames : Nat
  exit_frames : Nat
  status : String
deriving DecidableEq, Repr

/-- One element of the list returned by `get_attendance_updates`. -/
structure Update where
  student_id : Nat
  name : String
  action : Action
  time : Int
deriving DecidableEq, Repr

/-- The tracking-relevant state of `FaceRecognitionModule`:
`present_students`, `student_tracking` (a Python dict, i.e. an
insertion-ordered association list) and the two thresholds. -/
structure FRM where
  present_students : Finset Nat
  student_tracking : List (Nat × TrackingState)
  entry_threshold : Nat
  exit_threshold : Nat
deriving DecidableEq

/-- A freshly constructed module with the given thresholds (the constructor
uses 3 and 5). -/
def mkFRM (e x : Nat) : FRM :=
  { present_students := ∅
    student_tracking := []
    entry_threshold := e
    exit_threshold := x }

/-- The module as built by `FaceRecognitionModule.__init__`:
`entry_threshold = 3`, `exit_threshold = 5`. -/
def initFRM : FRM := mkFRM 3 5

/-- Dictionary lookup on the association list. -/
def lookupTrack : List (Nat × TrackingState) → Nat → Option TrackingState
  | [], _ => none
  | kv :: rest, i => if kv.1 = i then some kv.2 else lookupTrack rest i

/-- In-place mutation of the entry stored under a key (Python mutates the
dict value; the key order is unchanged). -/
def updateTrack (f : TrackingState → TrackingState) :
    List (Nat × TrackingState) → Nat → List (Nat × TrackingState)
  | [], _ => []
  | kv :: rest, i =>
      if kv.1 = i then (kv.1, f kv.2) :: rest else kv :: updateTrack f rest i

/-- The record created on first sighting of an identity. -/
def freshTS (name : String) (now : Int) : TrackingState :=
  { name := name
    first_seen := now
    last_seen := now
    entry_frames := 0
    exit_frames := 0
    status := "unknown" }

/-- `track_student_attendance(student_id, name)`: called once per frame in
which the identity is positively matched.  Creates the tracking record on
first sighting (else refreshes `last_seen`); then, if the identity is
already in `present_students`, increments `entry_frames` and zeroes
`exit_frames`, otherwise increments `exit_frames` and zeroes
`entry_frames`. -/
def track_student_attendance (s : FRM) (student_id : Nat) (name : String)
    (now : Int) : FRM :=
  let tracking :=
    match lookupTrack s.student_tracking student_id with
    | none => s.student_tracking ++ [(student_id, freshTS name now)]
    | some _ =>
        updateTrack (fun t => { t with last_seen := now })
          s.student_tracking student_id
  if student_id ∈ s.present_students then
    { s with student_tracking := updateTrack (fun t => { t with entry_frames := t.entry_frames + 1, exit_frames := 0 }) tracking student_id }
  else
    { s with student_tracking := updateTrack (fun t => { t with exit_frames := t.exit_frames + 1, entry_frames := 0 }) tracking student_id }

/-- The loop body of `get_attendance_updates`: walk the tracked identities
in dictionary order, threading `present_students` and accumulating the
rebuilt dictionary and the emitted updates. -/
def drainAux (e x : Nat) (now : Int) (pres : Finset Nat) :
    List (Nat × TrackingState) →
      Finset Nat × List (Nat × TrackingState) × List Update
  | [] => (pres, [], [])
  | (sid, tr) :: rest =>
      if e ≤ tr.entry_frames ∧ sid ∉ pres then
        let r := drainAux e x now (insert sid pres) rest
        (r.1, (sid, { tr with status := "entered" }) :: r.2.1,
          { student_id := sid, name := tr.name, action := Action.entered,
            time := now } :: r.2.2)
      else if x ≤ tr.exit_frames ∧ sid ∈ pres then
        let r := drainAux e x now (pres.erase sid) rest
        (r.1, (sid, { tr with status := "exited" }) :: r.2.1,
          { student_id := sid, name := tr.name, action := Action.exited,
            time := now } :: r.2.2)
      else
        let r := drainAux e x now pres rest
        (r.1, (sid, tr) :: r.2.1, r.2.2)

/-- `get_attendance_updates()`: returns the updated module state and the
list of updates, in iteration order. -/
def get_attendance_updates (s : FRM) (now : Int) : FRM × List Update :=
  let r := drainAux s.entry_threshold s.exit_threshold now
    s.present_students s.student_tracking
  ({ s with present_students := r.1, student_tracking := r.2.1 }, r.2.2)

/-- `reset_tracking()`: clears `present_students` and `student_tracking`. -/
def reset_tracking (s : FRM) : FRM :=
  { s with present_students := ∅, student_tracking := [] }

/-- One externally driven step of the module. -/
inductive Op where
  | observe (student_id : Nat) (name : String) (t : Int)
  | drain (t : Int)
  | reset
deriving DecidableEq

/-- Apply one step to the module state. -/
def applyOp (s : FRM) : Op → FRM
  | Op.observe i n t => track_student_attendance s i n t
  | Op.drain t => (get_attendance_updates s t).1
  | Op.reset => reset_tracking s

/-- Run a sequence of steps. -/
def runOps (s : FRM) : List Op → FRM
  | [] => s
  | op :: ops => runOps (applyOp s op) ops

/-- Run a sequence of steps, also collecting every update emitted by the
drains, in order. -/
def runTrace (s : FRM) : List Op → FRM × List Update
  | [] => (s, [])
  | Op.observe i n t :: ops => runTrace (track_student_attendance s i n t) ops
  | Op.drain t :: ops =>
      let r := get_attendance_updates s t
      let rest := runTrace r.1 ops
      (rest.1, r.2 ++ rest.2)
  | Op.reset :: ops => runTrace (reset_tracking s) ops

/-- The subsequence of actions a trace reports for one identity. -/
def acts (i : Nat) (us : List Update) : List Action :=
  us.filterMap (fun u => if u.student_id = i then some u.action else none)

/-- The `current_session` dict of `AttendanceTracker`: start time, date and
the two session counters, plus the end-time / duration fields that
`stop_tracking` fills in. -/
structure Session where
  start_time : Int
  date : Int
  total_entries : Nat
  total_exits : Nat
  end_time : Option Int
  duration : Option Int
deriving DecidableEq, Repr

/-- One element of `attendance_log`. -/
structure LogEntry where
  timestamp : Int
  student_id : Nat
  name : String
  action : Action
deriving DecidableEq, Repr

/-- Dictionary lookup on an identity-to-timestamp map. -/
def lookupTime : List (Nat × Int) → Nat → Option Int
  | [], _ => none
  | kv :: rest, i => if kv.1 = i then some kv.2 else lookupTime rest i

/-- Dictionary assignment on an identity-to-timestamp map (overwrite the
key if present, append it otherwise). -/
def setTime : List (Nat × Int) → Nat → Int → List (Nat × Int)
  | [], i, t => [(i, t)]
  | kv :: rest, i, t =>
      if kv.1 = i then (i, t) :: rest else kv :: setTime rest i t

/-- The state of `AttendanceTracker`.  The database is an external
collaborator; its replies enter `process_attendance_update` as an oracle
argument. -/
structure AT where
  frm : FRM
  is_tracking : Bool
  attendance_log : List LogEntry
  current_session : Option Session
  entry_cooldown : Int
  exit_cooldown : Int
  student_entry_times : List (Nat × Int)
  student_exit_times : List (Nat × Int)
deriving DecidableEq

/-- `start_tracking()`: returns the boolean result and the new state.  It
fails without any change while already tracking; otherwise it opens a new
session, resets the recognition module and starts the polling thread (the
thread itself is the driver of the loop modelled by `Op`). -/
def start_tracking (s : AT) (now today : Int) : Bool × AT :=
  if s.is_tracking then (false, s)
  else
    (true,
      { s with
        is_tracking := true
        current_session := some { start_time := now, date := today, total_entries := 0, total_exits := 0, end_time := none, duration := none }
        frm := reset_tracking s.frm })

/-- `stop_tracking()`: fails without any change while idle; otherwise it
clears the tracking flag, joins the worker, refreshes the daily summary in
the database (an external effect) and stamps the session with its end time
and duration. -/
def stop_tracking (s : AT) (now : Int) : Bool × AT :=
  if s.is_tracking = false then (false, s)
  else
    let s1 := { s with is_tracking := false }
    match s1.current_session with
    | none => (true, s1)
    | some sess =>
        (true, { s1 with current_session := some { sess with end_time := some now, duration := some (now - sess.start_time) } })

/-- `_log_attendance_event`: append to the log, then trim it to the last
1000 entries when it exceeds that capacity. -/
def log_attendance_event (log : List LogEntry) (e : LogEntry) : List LogEntry :=
  let grown := log ++ [e]
  if 1000 < grown.length then grown.drop (grown.length - 1000) else grown

/-- The entry-cooldown test of `_process_attendance_update`: passes when the
identity has no recorded acceptance or when `now - last > entry_cooldown`. -/
def entry_cooldown_ok (s : AT) (i : Nat) (now : Int) : Bool :=
  match lookupTime s.student_entry_times i with
  | none => true
  | some last => decide (s.entry_cooldown < now - last)

/-- The exit-cooldown test of `_process_attendance_update`. -/
def exit_cooldown_ok (s : AT) (i : Nat) (now : Int) : Bool :=
  match lookupTime s.student_exit_times i with
  | none => true
  | some last => decide (s.exit_cooldown < now - last)

/-- `_process_attendance_update(update)`.  `storeReply` is the boolean the
database returns from `record_entry` / `record_exit` when it is called.
The boolean component of the result tells whether the store call was made
(the update got past the cooldown gate); the state is updated only when the
store call was made and replied `true`. -/
def process_attendance_update (s : AT) (u : Update) (now : Int)
    (storeReply : Bool) : AT × Bool :=
  match u.action with
  | Action.entered =>
      if entry_cooldown_ok s u.student_id now then
        if storeReply then
          ({ s with
              student_entry_times := setTime s.student_entry_times u.student_id now
              current_session := s.current_session.map (fun sess => { sess with total_entries := sess.total_entries + 1 })
              attendance_log := log_attendance_event s.attendance_log { timestamp := now, student_id := u.student_id, name := u.name, action := Action.entered } },
            true)
        else (s, true)
      else (s, false)
  | Action.exited =>
      if exit_cooldown_ok s u.student_id now then
        if storeReply then
          ({ s with
              student_exit_times := setTime s.student_exit_times u.student_id now
              current_session := s.current_session.map (fun sess => { sess with total_exits := sess.total_exits + 1 })
              attendance_log := log_attendance_event s.attendance_log { timestamp := now, student_id := u.student_id, name := u.name, action := Action.exited } },
            true)
        else (s, true)
      else (s, false)

/-- A row of `database.get_all_students()` (the fields the tracker reads). -/
structure StudentRow where
  id : Nat
  name : String
  student_id : String
deriving DecidableEq, Repr

/-- A row of `database.get_today_attendance()`: one row per registered
student (a left join from the student table), with status defaulting to
absent when no attendance row exists. -/
structure AttRow where
  name : String
  student_id : String
  entry_time : Option Int
  exit_time : Option Int
  status : String
deriving DecidableEq, Repr

/-- The numeric fields of the dict returned by
`get_current_attendance_status()`.  The formatted session-duration string
is presentation-only and not modelled. -/
structure Status where
  current_present : Nat
  total_students : Nat
  present_today : Nat
  absent_today : Int
  attendance_percentage : ℚ
  total_entries_session : Nat
  total_exits_session : Nat
deriving DecidableEq, Repr

/-- `get_current_attendance_status()`: the roster and the today-rows come
from the database. -/
def get_current_attendance_status (s : AT) (all_students : List StudentRow)
    (today_attendance : List AttRow) : Status :=
  let present_count := s.frm.present_students.card
  let total_students := all_students.length
  let present_today := (today_attendance.filter (fun a => a.status = "present")).length
  { current_present := present_count
    total_students := total_students
    present_today := present_today
    absent_today := (total_students : Int) - (present_today : Int)
    attendance_percentage := if 0 < total_students then (present_today : ℚ) / (total_students : ℚ) * 100 else 0
    total_entries_session := match s.current_session with
      | some sess => sess.total_entries
      | none => 0
    total_exits_session := match s.current_session with
      | some sess => sess.total_exits
      | none => 0 }

/-- The dict returned by `get_daily_summary()`. -/
structure Summary where
  date : Int
  total_students : Nat
  present_count : Nat
  absent_count : Nat
  attendance_percentage : ℚ
deriving DecidableEq, Repr

/-- `get_daily_summary(target_date)`: built from the today-rows returned by
the database; the percentage stays at its initial 0 unless the row count is
positive. -/
def get_daily_summary (attendance : List AttRow) (target_date : Int) : Summary :=
  let total := attendance.length
  let present := (attendance.filter (fun a => a.status = "present")).length
  let absent := (attendance.filter (fun a => a.status = "absent")).length
  { date := target_date
    total_students := total
    present_count := present
    absent_count := absent
    attendance_percentage := if 0 < total then (present : ℚ) / (total : ℚ) * 100 else 0 }

/-- The Python tail slice `log[-limit:]` as applied by
`get_attendance_log`: `-0` is `0`, so a zero limit takes the whole list. -/
def tailSlice (l : List LogEntry) (limit : Nat) : List LogEntry :=
  if limit = 0 then l else l.drop (l.length - limit)

/-- `get_attendance_log(limit)`: `log[-limit:] if log else []`. -/
def get_attendance_log (log : List LogEntry) (limit : Nat) : List LogEntry :=
  if log.isEmpty then [] else tailSlice log limit

/-- Observe one identity positively on a list of (name, time) frames. -/
def observeList (s : FRM) (i : Nat) : List (String × Int) → FRM
  | [] => s
  | nt :: rest => observeList (track_student_attendance s i nt.1 nt.2) i rest

/-- Steps other than a tracker reset. -/
def notReset : Op → Bool
  | Op.reset => false
  | _ => true

/-- The counter part of the tracking invariant: at least one of the two
consecutive-frame counters of an entry is zero. -/
def countersP (kv : Nat × TrackingState) : Bool :=
  kv.2.entry_frames == 0 || kv.2.exit_frames == 0

/-- The invariant holds for every tracked identity. -/
def countersOK (s : FRM) : Bool :=
  s.student_tracking.all countersP

/-- The action sequence an identity may still emit when its presence flag
is `b`: the next transition, if any, leaves state `b`, and the rest
continues from the flipped flag. -/
def AltFrom : Bool → List Action → Prop
  | _, [] => True
  | b, a :: rest =>
      a = (if b then Action.exited else Action.entered) ∧ AltFrom (!b) rest

/-- Well-formedness of the tracking dictionary: keys are distinct (it
models a Python dict). -/
def wfKeys (s : FRM) : Prop :=
  (s.student_tracking.map Prod.fst).Nodup

/-- A concrete module state used to instantiate hypotheses. -/
def sampleFRM : FRM :=
  { present_students := {9}
    student_tracking := [(9, freshTS "Zoe" 0)]
    entry_threshold := 3
    exit_threshold := 5 }

/-- A concrete tracker state used to instantiate hypotheses. -/
def sampleAT : AT :=
  { frm := initFRM
    is_tracking := true
    attendance_log := []
    current_session := some { start_time := 0, date := 0, total_entries := 2, total_exits := 1, end_time := none, duration := none }
    entry_cooldown := 30
    exit_cooldown := 30
    student_entry_times := [(4, 100)]
    student_exit_times := [(4, 200)] }

/-- A concrete log used to instantiate hypotheses. -/
def sampleLog : List LogEntry :=
  [{ timestamp := 1, student_id := 1, name := "Ann", action := Action.entered },
   { timestamp := 2, student_id := 2, name := "Ben", action := Action.entered },
   { timestamp := 3, student_id := 1, name := "Ann", action := Action.exited }]

/-- C1: with the default entry threshold 3, a never-before-seen identity
observed positively on frames 1, 2 and 3, with the transitions drained
after each frame, is claimed to produce exactly one Entered transition
after the third drain.  The code emits no transition at all: seeing a
not-yet-present identity increments `exit_frames` and zeroes
`entry_frames`, so `entry_frames` never reaches the threshold. -/
theorem fresh_identity_three_sightings_emit_nothing :
    (runTrace initFRM [Op.observe 7 "Ann" 1, Op.drain 1, Op.observe 7 "Ann" 2, Op.drain 2, Op.observe 7 "Ann" 3, Op.drain 3]).2 = [] ∧
    lookupTrack (runTrace initFRM [Op.observe 7 "Ann" 1, Op.drain 1, Op.observe 7 "Ann" 2, Op.drain 2, Op.observe 7 "Ann" 3, Op.drain 3]).1.student_tracking 7 =
      some { name := "Ann", first_seen := 1, last_seen := 3, entry_frames := 0, exit_frames := 3, status := "unknown" } := by
  constructor <;> decide

/-- C2: the claim states that a positive observation of an identity that is
not currently marked present increments `entry_frames` and zeroes
`exit_frames`.  The code does the opposite on that branch: after the first
sighting of a fresh identity the counters are `entry_frames = 0`,
`exit_frames = 1` (the seen-while-present half of the claim does match the
code). -/
theorem first_sighting_bumps_exit_frames :
    ((track_student_attendance initFRM 1 "Ann" 0).student_tracking.map (fun kv => (kv.1, kv.2.entry_frames, kv.2.exit_frames))) = [(1, 0, 1)] ∧
    1 ∉ (track_student_attendance initFRM 1 "Ann" 0).present_students := by
  constructor <;> decide

/-- C9: with an empty roster the attendance percentage is reported as 0
(the division is guarded), both in the live status snapshot and in the
daily summary. -/
theorem empty_roster_percentage_zero (s : AT) (today : List AttRow) (d : Int) :
    (get_current_attendance_status s [] today).attendance_percentage = 0 ∧
    (get_daily_summary [] d).attendance_percentage = 0 := by
  constructor <;> simp [get_current_attendance_status, get_daily_summary]

/-- C10: for a limit of at least 1, `get_attendance_log` returns the final
`min limit length` entries of the log in order; for a limit of 0 the
Python slice `log[-0:]` is the whole list, so the entire log is returned
and the bound does not apply. -/
theorem attendance_log_tail_slice (log : List LogEntry) (limit : Nat) :
    (1 ≤ limit →
      get_attendance_log log limit = log.drop (log.length - min limit log.length) ∧
      (get_attendance_log log limit).length = min limit log.length) ∧
    get_attendance_log log 0 = log := by
  constructor
  · intro h
    have hlim : ¬ limit = 0 := by omega
    cases log with
    | nil => simp [get_attendance_log]
    | cons a l =>
        constructor
        · simp only [get_attendance_log, tailSlice, List.isEmpty_cons, if_neg hlim]
          simp only [Bool.false_eq_true, if_false]
          congr 1
          omega
        · simp only [get_attendance_log, tailSlice, List.isEmpty_cons, if_neg hlim]
          simp only [Bool.false_eq_true, if_false]
          rw [List.length_drop]
          omega
  · cases log with
    | nil => simp [get_attendance_log]
    | cons a l => simp [get_attendance_log, tailSlice]

/-- Witness for C10 at a three-entry log and limit 2. -/
theorem attendance_log_tail_slice_witness :
    1 ≤ 2 ∧ get_attendance_log sampleLog 2 = sampleLog.drop (sampleLog.length - min 2 sampleLog.length) :=
  ⟨by decide, ((attendance_log_tail_slice sampleLog 2).1 (by decide)).1⟩

/-- C7: stopping twice only changes state once.  The first `stop_tracking`
while running succeeds and clears the flag; the second returns `false` and
returns the state entirely unchanged (session stats included); and
`start_tracking` while already running likewise fails without any state
change. -/
theorem stop_twice_changes_state_once (s : AT) (t1 t2 t3 today : Int)
    (h : s.is_tracking = true) :
    (stop_tracking s t1).1 = true ∧
    ((stop_tracking s t1).2).is_tracking = false ∧
    stop_tracking (stop_tracking s t1).2 t2 = (false, (stop_tracking s t1).2) ∧
    start_tracking s t3 today = (false, s) := by
  cases hcs : s.current_session <;>
    simp [stop_tracking, start_tracking, h, hcs]

/-- Witness for C7 at a concrete running tracker. -/
theorem stop_twice_changes_state_once_witness :
    sampleAT.is_tracking = true ∧ (stop_tracking sampleAT 50).1 = true :=
  ⟨rfl, (stop_twice_changes_state_once sampleAT 50 60 70 0 rfl).1⟩

/-- C5: with a 30-second cooldown, a transition applied 10 seconds after
the last accepted one of the same direction is rejected without touching
the store or the state, while one applied 31 seconds after is forwarded to
the store; this holds for exits and, symmetrically, for entries. -/
theorem cooldown_gates_store_calls (s : AT) (i : Nat) (nm : String)
    (tE tX ut : Int) (b : Bool)
    (hE : s.entry_cooldown = 30) (hX : s.exit_cooldown = 30)
    (hlE : lookupTime s.student_entry_times i = some tE)
    (hlX : lookupTime s.student_exit_times i = some tX) :
    process_attendance_update s { student_id := i, name := nm, action := Action.exited, time := ut } (tX + 10) b = (s, false) ∧
    (process_attendance_update s { student_id := i, name := nm, action := Action.exited, time := ut } (tX + 31) b).2 = true ∧
    process_attendance_update s { student_id := i, name := nm, action := Action.entered, time := ut } (tE + 10) b = (s, false) ∧
    (process_attendance_update s { student_id := i, name := nm, action := Action.entered, time := ut } (tE + 31) b).2 = true := by
  have hx10 : exit_cooldown_ok s i (tX + 10) = false := by
    simp only [exit_cooldown_ok, hlX, hX]
    simp only [decide_eq_false_iff_not]
    omega
  have hx31 : exit_cooldown_ok s i (tX + 31) = true := by
    simp only [exit_cooldown_ok, hlX, hX]
    simp only [decide_eq_true_eq]
    omega
  have he10 : entry_cooldown_ok s i (tE + 10) = false := by
    simp only [entry_cooldown_ok, hlE, hE]
    simp only [decide_eq_false_iff_not]
    omega
  have he31 : entry_cooldown_ok s i (tE + 31) = true := by
    simp only [entry_cooldown_ok, hlE, hE]
    simp only [decide_eq_true_eq]
    omega
  refine ⟨?_, ?_, ?_, ?_⟩ <;>
    cases b <;>
      simp [process_attendance_update, hx10, hx31, he10, he31]

/-- Witness for C5 at a concrete tracker with prior acceptances. -/
theorem cooldown_gates_store_calls_witness :
    sampleAT.exit_cooldown = 30 ∧
    process_attendance_update sampleAT { student_id := 4, name := "Bob", action := Action.exited, time := 500 } (200 + 10) true = (sampleAT, false) :=
  ⟨rfl, (cooldown_gates_store_calls sampleAT 4 "Bob" 100 200 500 true rfl rfl rfl rfl).1⟩

/-- C6: when an update passes the cooldown gate, the recorder changes
state only if the store reports a new record: a `false` store reply leaves
the state exactly as it was, while a `true` reply updates the last-accepted
time, bumps the matching session counter and appends to the log ring. -/
theorem store_reply_gates_state (s : AT) (i : Nat) (nm : String) (now ut : Int) :
    (entry_cooldown_ok s i now = true →
      process_attendance_update s { student_id := i, name := nm, action := Action.entered, time := ut } now false = (s, true) ∧
      (process_attendance_update s { student_id := i, name := nm, action := Action.entered, time := ut } now true).1 =
        { s with
          student_entry_times := setTime s.student_entry_times i now
          current_session := s.current_session.map (fun sess => { sess with total_entries := sess.total_entries + 1 })
          attendance_log := log_attendance_event s.attendance_log { timestamp := now, student_id := i, name := nm, action := Action.entered } }) ∧
    (exit_cooldown_ok s i now = true →
      process_attendance_update s { student_id := i, name := nm, action := Action.exited, time := ut } now false = (s, true) ∧
      (process_attendance_update s { student_id := i, name := nm, action := Action.exited, time := ut } now true).1 =
        { s with
          student_exit_times := setTime s.student_exit_times i now
          current_session := s.current_session.map (fun sess => { sess with total_exits := sess.total_exits + 1 })
          attendance_log := log_attendance_event s.attendance_log { timestamp := now, student_id := i, name := nm, action := Action.exited } }) := by
  constructor <;> intro h <;> simp [process_attendance_update, h]

/-- Witness for C6 at a concrete tracker whose entry cooldown has lapsed. -/
theorem store_reply_gates_state_witness :
    entry_cooldown_ok sampleAT 4 300 = true ∧
    process_attendance_update sampleAT { student_id := 4, name := "Bob", action := Action.entered, time := 500 } 300 false = (sampleAT, true) :=
  ⟨by decide, ((store_reply_gates_state sampleAT 4 "Bob" 300 500).1 (by decide)).1⟩

/-- Observing a single identity while nobody is present keeps the presence
set empty, keeps the thresholds, and leaves a tracking dictionary that is
either empty or a single entry for that identity with `entry_frames = 0`
(the seen-while-absent branch zeroes the entry counter). -/
theorem observe_only_inv (i : Nat) (n : String) (t : Int) (s : FRM)
    (hp : s.present_students = ∅)
    (ht : s.student_tracking = [] ∨
      ∃ ts, s.student_tracking = [(i, ts)] ∧ ts.entry_frames = 0) :
    (track_student_attendance s i n t).present_students = ∅ ∧
    (track_student_attendance s i n t).entry_threshold = s.entry_threshold ∧
    (track_student_attendance s i n t).exit_threshold = s.exit_threshold ∧
    ((track_student_attendance s i n t).student_tracking = [] ∨
      ∃ ts, (track_student_attendance s i n t).student_tracking = [(i, ts)] ∧ ts.entry_frames = 0) := by
  have hmem : i ∉ s.present_students := by simp [hp]
  rcases ht with h | ⟨ts, h, hts⟩
  · refine ⟨?_, ?_, ?_,
      Or.inr ⟨{ name := n, first_seen := t, last_seen := t, entry_frames := 0, exit_frames := 1, status := "unknown" }, ?_, rfl⟩⟩ <;>
      simp [track_student_attendance, h, lookupTrack, updateTrack, hmem, hp, freshTS]
  · refine ⟨?_, ?_, ?_,
      Or.inr ⟨{ ts with last_seen := t, entry_frames := 0, exit_frames := ts.exit_frames + 1 }, ?_, rfl⟩⟩ <;>
      simp [track_student_attendance, h, lookupTrack, updateTrack, hmem, hp, freshTS]

/-- `observe_only_inv` lifted to a whole list of sightings. -/
theorem observeList_inv (i : Nat) :
    ∀ (obs : List (String × Int)) (s : FRM),
      s.present_students = ∅ →
      (s.student_tracking = [] ∨
        ∃ ts, s.student_tracking = [(i, ts)] ∧ ts.entry_frames = 0) →
      (observeList s i obs).present_students = ∅ ∧
      (observeList s i obs).entry_threshold = s.entry_threshold ∧
      (observeList s i obs).exit_threshold = s.exit_threshold ∧
      ((observeList s i obs).student_tracking = [] ∨
        ∃ ts, (observeList s i obs).student_tracking = [(i, ts)] ∧ ts.entry_frames = 0)
  | [], s, hp, ht => ⟨hp, rfl, rfl, ht⟩
  | nt :: rest, s, hp, ht => by
      obtain ⟨hp1, he1, hx1, ht1⟩ := observe_only_inv i nt.1 nt.2 s hp ht
      obtain ⟨hp2, he2, hx2, ht2⟩ :=
        observeList_inv i rest (track_student_attendance s i nt.1 nt.2) hp1 ht1
      exact ⟨hp2, he2.trans he1, hx2.trans hx1, ht2⟩

/-- C8: `reset_tracking` leaves exactly the state a freshly constructed
module has (given the same thresholds), so re-observing any identity after
a reset starts from zero counters, and with fewer positive sightings than
the entry threshold no Entered transition is emitted for it by the next
drain. -/
theorem reset_requires_full_threshold (s : FRM) :
    reset_tracking s = mkFRM s.entry_threshold s.exit_threshold ∧
    ∀ (i : Nat) (obs : List (String × Int)) (t : Int),
      obs.length < s.entry_threshold →
      Action.entered ∉ acts i (get_attendance_updates (observeList (reset_tracking s) i obs) t).2 := by
  refine ⟨rfl, ?_⟩
  intro i obs t hlen
  obtain ⟨hp, he, hx, ht⟩ :=
    observeList_inv i obs (reset_tracking s) rfl (Or.inl rfl)
  have hethr : (observeList (reset_tracking s) i obs).entry_threshold = s.entry_threshold := he
  rcases ht with h | ⟨ts, h, hts⟩
  · simp [get_attendance_updates, h, drainAux, acts]
  · have hc1 : ¬ ((observeList (reset_tracking s) i obs).entry_threshold ≤ ts.entry_frames ∧
        i ∉ (observeList (reset_tracking s) i obs).present_students) := by
      rw [hethr, hts]
      intro hcon
      omega
    have hc2 : ¬ ((observeList (reset_tracking s) i obs).exit_threshold ≤ ts.exit_frames ∧
        i ∈ (observeList (reset_tracking s) i obs).present_students) := by
      rw [hp]
      simp
    simp [get_attendance_updates, h, drainAux, hc1, hc2, acts]

/-- Witness for C8: a populated module, reset, then two sightings of a new
identity against threshold 3. -/
theorem reset_requires_full_threshold_witness :
    List.length [("Ann", (1 : Int)), ("Ann", 2)] < sampleFRM.entry_threshold ∧
    Action.entered ∉ acts 7 (get_attendance_updates (observeList (reset_tracking sampleFRM) 7 [("Ann", 1), ("Ann", 2)]) 9).2 :=
  ⟨by decide, (reset_requires_full_threshold sampleFRM).2 7 [("Ann", 1), ("Ann", 2)] 9 (by decide)⟩

/-- Updating one entry of the tracking dictionary preserves an `all`
property when the update does. -/
theorem all_updateTrack (p : Nat × TrackingState → Bool) (f : TrackingState → TrackingState) :
    ∀ (l : List (Nat × TrackingState)) (i : Nat),
      l.all p = true →
      (∀ k t, p (k, t) = true → p (k, f t) = true) →
      (updateTrack f l i).all p = true
  | [], _, _, _ => rfl
  | kv :: rest, i, hl, hf => by
      simp only [List.all_cons, Bool.and_eq_true] at hl
      by_cases h : kv.1 = i
      · simp only [updateTrack, if_pos h, List.all_cons, Bool.and_eq_true]
        exact ⟨hf kv.1 kv.2 hl.1, hl.2⟩
      · simp only [updateTrack, if_neg h, List.all_cons, Bool.and_eq_true]
        exact ⟨hl.1, all_updateTrack p f rest i hl.2 hf⟩

/-- Draining only rewrites the `status` strings, so the counter invariant
survives it. -/
theorem drainAux_all_countersP (e x : Nat) (now : Int) :
    ∀ (l : List (Nat × TrackingState)) (pres : Finset Nat),
      l.all countersP = true →
      ((drainAux e x now pres l).2.1).all countersP = true
  | [], _, _ => rfl
  | (sid, tr) :: rest, pres, hl => by
      simp only [List.all_cons, Bool.and_eq_true] at hl
      by_cases h1 : e ≤ tr.entry_frames ∧ sid ∉ pres
      · simp only [drainAux, if_pos h1, List.all_cons, Bool.and_eq_true]
        exact ⟨hl.1, drainAux_all_countersP e x now rest (insert sid pres) hl.2⟩
      · by_cases h2 : x ≤ tr.exit_frames ∧ sid ∈ pres
        · simp only [drainAux, if_neg h1, if_pos h2, List.all_cons, Bool.and_eq_true]
          exact ⟨hl.1, drainAux_all_countersP e x now rest (pres.erase sid) hl.2⟩
        · simp only [drainAux, if_neg h1, if_neg h2, List.all_cons, Bool.and_eq_true]
          exact ⟨hl.1, drainAux_all_countersP e x now rest pres hl.2⟩

/-- A sighting always zeroes one of the two counters of the identity it
touches, so the counter invariant survives it. -/
theorem track_preserves_countersOK (s : FRM) (i : Nat) (n : String) (t : Int)
    (h : countersOK s = true) :
    countersOK (track_student_attendance s i n t) = true := by
  have htr :
      (match lookupTrack s.student_tracking i with
        | none => s.student_tracking ++ [(i, freshTS n t)]
        | some _ =>
            updateTrack (fun u => { u with last_seen := t }) s.student_tracking i).all countersP = true := by
    cases hk : lookupTrack s.student_tracking i with
    | none =>
        simp only [List.all_append, Bool.and_eq_true]
        exact ⟨h, by simp [countersP, freshTS]⟩
    | some ts =>
        exact all_updateTrack countersP _ s.student_tracking i h (fun k u hu => hu)
  by_cases hm : i ∈ s.present_students
  · simp only [track_student_attendance, if_pos hm, countersOK]
    exact all_updateTrack countersP _ _ i htr (fun k u _ => by simp [countersP])
  · simp only [track_student_attendance, if_neg hm, countersOK]
    exact all_updateTrack countersP _ _ i htr (fun k u _ => by simp [countersP])

/-- The counter invariant survives every step. -/
theorem applyOp_countersOK (s : FRM) (op : Op) (h : countersOK s = true) :
    countersOK (applyOp s op) = true := by
  cases op with
  | observe i n t => exact track_preserves_countersOK s i n t h
  | drain t =>
      exact drainAux_all_countersP s.entry_threshold s.exit_threshold t s.student_tracking s.present_students h
  | reset => rfl

/-- C3: in every state reachable from a fresh module by any sequence of
sightings, drains and resets, no tracked identity ever has both
`entry_frames` and `exit_frames` nonzero: every increment of one counter
zeroes the other. -/
theorem counters_never_both_nonzero (e x : Nat) (ops : List Op) :
    countersOK (runOps (mkFRM e x) ops) = true := by
  have main : ∀ (l : List Op) (s : FRM), countersOK s = true → countersOK (runOps s l) = true := by
    intro l
    induction l with
    | nil => exact fun s hs => hs
    | cons op rest ih => exact fun s hs => ih _ (applyOp_countersOK s op hs)
  exact main ops (mkFRM e x) rfl

theorem lookupTrack_eq_none :
    ∀ (l : List (Nat × TrackingState)) (i : Nat),
      lookupTrack l i = none ↔ i ∉ l.map Prod.fst
  | [], i => by simp [lookupTrack]
  | kv :: rest, i => by
      by_cases h : kv.1 = i
      · simp [lookupTrack, h]
      · simp [lookupTrack, h, lookupTrack_eq_none rest i, Ne.symm h]

theorem updateTrack_map_fst (f : TrackingState → TrackingState) :
    ∀ (l : List (Nat × TrackingState)) (i : Nat),
      (updateTrack f l i).map Prod.fst = l.map Prod.fst
  | [], _ => rfl
  | kv :: rest, i => by
      by_cases h : kv.1 = i <;>
        simp [updateTrack, h, updateTrack_map_fst f rest i]

theorem drainAux_map_fst (e x : Nat) (now : Int) :
    ∀ (l : List (Nat × TrackingState)) (pres : Finset Nat),
      ((drainAux e x now pres l).2.1).map Prod.fst = l.map Prod.fst
  | [], _ => rfl
  | (sid, tr) :: rest, pres => by
      by_cases h1 : e ≤ tr.entry_frames ∧ sid ∉ pres
      · simp [drainAux, if_pos h1, drainAux_map_fst e x now rest (insert sid pres)]
      · by_cases h2 : x ≤ tr.exit_frames ∧ sid ∈ pres
        · simp [drainAux, if_neg h1, if_pos h2, drainAux_map_fst e x now rest (pres.erase sid)]
        · simp [drainAux, if_neg h1, if_neg h2, drainAux_map_fst e x now rest pres]

theorem track_present_students (s : FRM) (i : Nat) (n : String) (t : Int) :
    (track_student_attendance s i n t).present_students = s.present_students := by
  by_cases hm : i ∈ s.present_students <;>
    simp [track_student_attendance, hm]

theorem wfKeys_track (s : FRM) (i : Nat) (n : String) (t : Int) (h : wfKeys s) :
    wfKeys (track_student_attendance s i n t) := by
  have hkeys : ((match lookupTrack s.student_tracking i with
      | none => s.student_tracking ++ [(i, freshTS n t)]
      | some _ =>
          updateTrack (fun u => { u with last_seen := t }) s.student_tracking i).map Prod.fst).Nodup := by
    cases hk : lookupTrack s.student_tracking i with
    | none =>
        have hni : i ∉ s.student_tracking.map Prod.fst := (lookupTrack_eq_none _ _).1 hk
        simp only [List.map_append, List.map_cons, List.map_nil]
        exact List.Nodup.append h (List.nodup_singleton i)
          (by simpa [List.disjoint_singleton] using hni)
    | some ts => simpa [updateTrack_map_fst] using h
  by_cases hm : i ∈ s.present_students
  · simp only [wfKeys, track_student_attendance, if_pos hm]
    simpa [updateTrack_map_fst] using hkeys
  · simp only [wfKeys, track_student_attendance, if_neg hm]
    simpa [updateTrack_map_fst] using hkeys

theorem wfKeys_applyOp (s : FRM) (op : Op) (h : wfKeys s) :
    wfKeys (applyOp s op) := by
  cases op with
  | observe i n t => exact wfKeys_track s i n t h
  | drain t =>
      simpa [wfKeys, applyOp, get_attendance_updates, drainAux_map_fst] using h
  | reset => simp [wfKeys, applyOp, reset_tracking]

theorem wfKeys_runOps :
    ∀ (ops : List Op) (s : FRM), wfKeys s → wfKeys (runOps s ops)
  | [], _, h => h
  | op :: rest, s, h => wfKeys_runOps rest (applyOp s op) (wfKeys_applyOp s op h)

theorem acts_cons (i : Nat) (u : Update) (us : List Update) :
    acts i (u :: us) = if u.student_id = i then u.action :: acts i us else acts i us := by
  by_cases h : u.student_id = i <;> simp [acts, h]

theorem acts_append (i : Nat) (us vs : List Update) :
    acts i (us ++ vs) = acts i us ++ acts i vs := by
  simp [acts]

theorem drainAux_acts_not_mem (e x : Nat) (now : Int) (i : Nat) :
    ∀ (l : List (Nat × TrackingState)) (pres : Finset Nat),
      i ∉ l.map Prod.fst →
      acts i (drainAux e x now pres l).2.2 = [] ∧
      ((i ∈ (drainAux e x now pres l).1) ↔ i ∈ pres)
  | [], pres, _ => ⟨rfl, Iff.rfl⟩
  | (sid, tr) :: rest, pres, hni => by
      have hsid : sid ≠ i := by
        intro hcon
        exact hni (by simp [hcon])
      have hi : i ≠ sid := Ne.symm hsid
      have hrest : i ∉ rest.map Prod.fst := by
        intro hcon
        exact hni (by simp [hcon])
      by_cases h1 : e ≤ tr.entry_frames ∧ sid ∉ pres
      · obtain ⟨ha, hb⟩ := drainAux_acts_not_mem e x now i rest (insert sid pres) hrest
        constructor
        · simp [drainAux, if_pos h1, acts_cons, hsid, ha]
        · simp only [drainAux, if_pos h1]
          rw [hb]
          simp [Finset.mem_insert, hi]
      · by_cases h2 : x ≤ tr.exit_frames ∧ sid ∈ pres
        · obtain ⟨ha, hb⟩ := drainAux_acts_not_mem e x now i rest (pres.erase sid) hrest
          constructor
          · simp [drainAux, if_neg h1, if_pos h2, acts_cons, hsid, ha]
          · simp only [drainAux, if_neg h1, if_pos h2]
            rw [hb]
            simp [Finset.mem_erase, hi]
        · obtain ⟨ha, hb⟩ := drainAux_acts_not_mem e x now i rest pres hrest
          constructor
          · simp [drainAux, if_neg h1, if_neg h2, acts_cons, hsid, ha]
          · simp only [drainAux, if_neg h1, if_neg h2]
            exact hb

theorem drainAux_acts (e x : Nat) (now : Int) (i : Nat) :
    ∀ (l : List (Nat × TrackingState)) (pres : Finset Nat),
      (l.map Prod.fst).Nodup →
      (acts i (drainAux e x now pres l).2.2 = [] ∧
        ((i ∈ (drainAux e x now pres l).1) ↔ i ∈ pres)) ∨
      (acts i (drainAux e x now pres l).2.2 = [Action.entered] ∧
        i ∉ pres ∧ i ∈ (drainAux e x now pres l).1) ∨
      (acts i (drainAux e x now pres l).2.2 = [Action.exited] ∧
        i ∈ pres ∧ i ∉ (drainAux e x now pres l).1)
  | [], pres, _ => Or.inl ⟨rfl, Iff.rfl⟩
  | (sid, tr) :: rest, pres, hnd => by
      have hsidrest : sid ∉ rest.map Prod.fst := by
        have := hnd
        simp only [List.map_cons, List.nodup_cons] at this
        exact this.1
      have hndrest : (rest.map Prod.fst).Nodup := by
        simp only [List.map_cons, List.nodup_cons] at hnd
        exact hnd.2
      by_cases his : sid = i
      · subst his
        by_cases h1 : e ≤ tr.entry_frames ∧ sid ∉ pres
        · obtain ⟨ha, hb⟩ := drainAux_acts_not_mem e x now sid rest (insert sid pres) hsidrest
          refine Or.inr (Or.inl ⟨?_, h1.2, ?_⟩)
          · simp [drainAux, if_pos h1, acts_cons, ha]
          · simp only [drainAux, if_pos h1]
            rw [hb]
            simp [Finset.mem_insert]
        · by_cases h2 : x ≤ tr.exit_frames ∧ sid ∈ pres
          · obtain ⟨ha, hb⟩ := drainAux_acts_not_mem e x now sid rest (pres.erase sid) hsidrest
            refine Or.inr (Or.inr ⟨?_, h2.2, ?_⟩)
            · simp [drainAux, if_neg h1, if_pos h2, acts_cons, ha]
            · simp only [drainAux, if_neg h1, if_pos h2]
              rw [hb]
              simp [Finset.mem_erase]
          · obtain ⟨ha, hb⟩ := drainAux_acts_not_mem e x now sid rest pres hsidrest
            refine Or.inl ⟨?_, ?_⟩
            · simp [drainAux, if_neg h1, if_neg h2, acts_cons, ha]
            · simp only [drainAux, if_neg h1, if_neg h2]
              exact hb
      · have hi : i ≠ sid := Ne.symm his
        by_cases h1 : e ≤ tr.entry_frames ∧ sid ∉ pres
        · have hrec := drainAux_acts e x now i rest (insert sid pres) hndrest
          have hmem : (i ∈ insert sid pres) ↔ i ∈ pres := by simp [Finset.mem_insert, hi]
          rcases hrec with ⟨ha, hb⟩ | ⟨ha, hb, hc⟩ | ⟨ha, hb, hc⟩
          · refine Or.inl ⟨?_, ?_⟩
            · simp [drainAux, if_pos h1, acts_cons, his, ha]
            · simp only [drainAux, if_pos h1]
              rw [hb, hmem]
          · refine Or.inr (Or.inl ⟨?_, ?_, ?_⟩)
            · simp [drainAux, if_pos h1, acts_cons, his, ha]
            · exact fun hcon => hb (hmem.mpr hcon)
            · simp only [drainAux, if_pos h1]
              exact hc
          · refine Or.inr (Or.inr ⟨?_, ?_, ?_⟩)
            · simp [drainAux, if_pos h1, acts_cons, his, ha]
            · exact hmem.mp hb
            · simp only [drainAux, if_pos h1]
              exact hc
        · by_cases h2 : x ≤ tr.exit_frames ∧ sid ∈ pres
          · have hrec := drainAux_acts e x now i rest (pres.erase sid) hndrest
            have hmem : (i ∈ pres.erase sid) ↔ i ∈ pres := by simp [Finset.mem_erase, hi]
            rcases hrec with ⟨ha, hb⟩ | ⟨ha, hb, hc⟩ | ⟨ha, hb, hc⟩
            · refine Or.inl ⟨?_, ?_⟩
              · simp [drainAux, if_neg h1, if_pos h2, acts_cons, his, ha]
              · simp only [drainAux, if_neg h1, if_pos h2]
                rw [hb, hmem]
            · refine Or.inr (Or.inl ⟨?_, ?_, ?_⟩)
              · simp [drainAux, if_neg h1, if_pos h2, acts_cons, his, ha]
              · exact fun hcon => hb (hmem.mpr hcon)
              · simp only [drainAux, if_neg h1, if_pos h2]
                exact hc
            · refine Or.inr (Or.inr ⟨?_, ?_, ?_⟩)
              · simp [drainAux, if_neg h1, if_pos h2, acts_cons, his, ha]
              · exact hmem.mp hb
              · simp only [drainAux, if_neg h1, if_pos h2]
                exact hc
          · have hrec := drainAux_acts e x now i rest pres hndrest
            rcases hrec with ⟨ha, hb⟩ | ⟨ha, hb, hc⟩ | ⟨ha, hb, hc⟩
            · refine Or.inl ⟨?_, ?_⟩
              · simp [drainAux, if_neg h1, if_neg h2, acts_cons, his, ha]
              · simp only [drainAux, if_neg h1, if_neg h2]
                exact hb
            · refine Or.inr (Or.inl ⟨?_, hb, ?_⟩)
              · simp [drainAux, if_neg h1, if_neg h2, acts_cons, his, ha]
              · simp only [drainAux, if_neg h1, if_neg h2]
                exact hc
            · refine Or.inr (Or.inr ⟨?_, hb, ?_⟩)
              · simp [drainAux, if_neg h1, if_neg h2, acts_cons, his, ha]
              · simp only [drainAux, if_neg h1, if_neg h2]
                exact hc

theorem altFrom_chain :
    ∀ (b : Bool) (l : List Action), AltFrom b l → List.Chain' (fun a c => a ≠ c) l
  | _, [], _ => List.chain'_nil
  | b, a :: rest, h => by
      obtain ⟨ha, hrest⟩ := h
      have hchain := altFrom_chain (!b) rest hrest
      cases rest with
      | nil => simp
      | cons c rest2 =>
          obtain ⟨hc, _⟩ := hrest
          refine List.Chain'.cons ?_ hchain
          rw [ha, hc]
          cases b <;> decide

theorem runTrace_altFrom (i : Nat) :
    ∀ (ops : List Op) (s : FRM),
      ops.all notReset = true →
      wfKeys s →
      AltFrom (decide (i ∈ s.present_students)) (acts i (runTrace s ops).2)
  | [], _, _, _ => trivial
  | Op.observe j n t :: rest, s, hops, hwf => by
      simp only [List.all_cons, Bool.and_eq_true] at hops
      have h := runTrace_altFrom i rest (track_student_attendance s j n t) hops.2
        (wfKeys_track s j n t hwf)
      rw [track_present_students] at h
      exact h
  | Op.drain t :: rest, s, hops, hwf => by
      simp only [List.all_cons, Bool.and_eq_true] at hops
      have hwf2 : wfKeys ((get_attendance_updates s t).1) :=
        wfKeys_applyOp s (Op.drain t) hwf
      have hrec := runTrace_altFrom i rest (get_attendance_updates s t).1 hops.2 hwf2
      have hd := drainAux_acts s.entry_threshold s.exit_threshold t i
        s.student_tracking s.present_students hwf
      show AltFrom (decide (i ∈ s.present_students))
        (acts i ((get_attendance_updates s t).2 ++ (runTrace (get_attendance_updates s t).1 rest).2))
      rw [acts_append]
      rcases hd with ⟨ha, hb⟩ | ⟨ha, hb, hc⟩ | ⟨ha, hb, hc⟩
      · have ha2 : acts i (get_attendance_updates s t).2 = [] := ha
        have hb2 : (i ∈ (get_attendance_updates s t).1.present_students) ↔ i ∈ s.present_students := hb
        rw [ha2, List.nil_append]
        have hdec : decide (i ∈ (get_attendance_updates s t).1.present_students) = decide (i ∈ s.present_students) :=
          decide_eq_decide.mpr hb2
        rw [← hdec]
        exact hrec
      · have ha2 : acts i (get_attendance_updates s t).2 = [Action.entered] := ha
        have hc2 : i ∈ (get_attendance_updates s t).1.present_students := hc
        have hb2 : decide (i ∈ s.present_students) = false := by simpa using hb
        have hc3 : decide (i ∈ (get_attendance_updates s t).1.present_students) = true := by
          simpa using hc2
        rw [ha2, List.singleton_append, hb2]
        rw [hc3] at hrec
        exact ⟨rfl, hrec⟩
      · have ha2 : acts i (get_attendance_updates s t).2 = [Action.exited] := ha
        have hc2 : i ∉ (get_attendance_updates s t).1.present_students := hc
        have hb2 : decide (i ∈ s.present_students) = true := by simpa using hb
        have hc3 : decide (i ∈ (get_attendance_updates s t).1.present_students) = false := by
          simpa using hc2
        rw [ha2, List.singleton_append, hb2]
        rw [hc3] at hrec
        exact ⟨rfl, hrec⟩
  | Op.reset :: rest, s, hops, hwf => by
      simp only [List.all_cons, Bool.and_eq_true] at hops
      exact absurd hops.1 (by simp [notReset])

/-- C4: over any run of sightings and drains from a fresh tracker (no
mid-run reset), the transition subsequence of any one identity never holds
two Entered without an intervening Exited nor two Exited without an
intervening Entered (adjacent actions always differ); and a single drain
call emits at most one transition for any identity. -/
theorem transitions_alternate (e x : Nat) (ops : List Op) (i : Nat) (t : Int)
    (hops : ops.all notReset = true) :
    List.Chain' (fun a c => a ≠ c) (acts i (runTrace (mkFRM e x) ops).2) ∧
    (acts i (get_attendance_updates (runOps (mkFRM e x) ops) t).2).length ≤ 1 := by
  constructor
  · exact altFrom_chain _ _ (runTrace_altFrom i ops (mkFRM e x) hops (by simp [wfKeys, mkFRM]))
  · have hwf : wfKeys (runOps (mkFRM e x) ops) :=
      wfKeys_runOps ops (mkFRM e x) (by simp [wfKeys, mkFRM])
    have hd := drainAux_acts (runOps (mkFRM e x) ops).entry_threshold
      (runOps (mkFRM e x) ops).exit_threshold t i
      (runOps (mkFRM e x) ops).student_tracking
      (runOps (mkFRM e x) ops).present_students hwf
    rcases hd with ⟨ha, _⟩ | ⟨ha, _, _⟩ | ⟨ha, _, _⟩
    · have ha2 : acts i (get_attendance_updates (runOps (mkFRM e x) ops) t).2 = [] := ha
      simp [ha2]
    · have ha2 : acts i (get_attendance_updates (runOps (mkFRM e x) ops) t).2 = [Action.entered] := ha
      simp [ha2]
    · have ha2 : acts i (get_attendance_updates (runOps (mkFRM e x) ops) t).2 = [Action.exited] := ha
      simp [ha2]

/-- Witness for C4: a sighting followed by two drains. -/
theorem transitions_alternate_witness :
    ([Op.observe 7 "Ann" 1, Op.drain 1, Op.drain 2].all notReset = true) ∧
    List.Chain' (fun a c => a ≠ c)
      (acts 7 (runTrace (mkFRM 3 5) [Op.observe 7 "Ann" 1, Op.drain 1, Op.drain 2]).2) :=
  ⟨by decide, (transitions_alternate 3 5 [Op.observe 7 "Ann" 1, Op.drain 1, Op.drain 2] 7 3 (by decide)).1⟩

end FaceIt

